import Mathlib

/-!
Formal model of the crash-game casino contract (`src/contract/lib.rs`).

Every public message of the ink! contract panics on a failed precondition
or on a checked-arithmetic overflow, and a panic reverts the whole call.
We therefore model each message as a function `Env → CrashCasino →
Except CErr CrashCasino`: an `.error` result means the call reverted and
the state of the caller is unchanged.

Machine integers are modelled as `Nat` with explicit bound checks at every
arithmetic operation that the (overflow-checked) contract build would panic
on: `u32` additions against `U32LIM`, `u64` against `U64LIM`, `u128`
(`Balance`) against `U128LIM`.  The global `casino_pool` is modelled as
`Int` so that its non-negativity is a provable invariant rather than a
typing accident.  The two ink! `Mapping`s become association lists with
first-match lookup; insertion prepends, which realises upsert semantics.

The environment (`Env`) supplies the caller identity, the block number,
the transferred value, the first byte of the `Blake2x256` hash (as an
arbitrary function of the salt bytes) and the success of native transfers.
-/

deriving instance DecidableEq for Except

namespace CrashGame

/-- The token scale, `10^12`, which is also the fixed round price set by
`start_new_game`. -/
def SCALE : Nat := 1000000000000

/-- Bound `2^32` of `u32` arithmetic. -/
def U32LIM : Nat := 4294967296

/-- Bound `2^64` of `u64` arithmetic. -/
def U64LIM : Nat := 18446744073709551616

/-- Bound `2^128` of `u128` (`Balance`) arithmetic. -/
def U128LIM : Nat := 340282366920938463463374607431768211456

/-- Rust `Player` struct: per-round token balance and exit flag. -/
structure Player where
  token_balance : Nat
  exited : Bool
deriving DecidableEq

/-- Rust `Default` for `Player`: zero balance, not exited. -/
def Player.default : Player := ⟨0, false⟩

/-- Rust `Game` struct: one round of the casino. -/
structure Game where
  id : Nat
  start_block : Nat
  price : Nat
  crashed : Bool
  game_pool : Nat
deriving DecidableEq

/-- The contract storage struct `CrashCasino`. -/
structure CrashCasino where
  owner : Nat
  game_interval : Nat
  last_game_block : Nat
  current_game_id : Nat
  casino_pool : Int
  games : List (Nat × Game)
  players : List ((Nat × Nat) × Player)
deriving DecidableEq

/-- Error taxonomy: the panics of the contract, named as in the spec, plus
`Overflow` for a checked-arithmetic panic and `DivByZero` for a division
panic. -/
inductive CErr where
  | NoActiveRound
  | RoundCrashed
  | NoFundsSent
  | PlayerNotFound
  | AlreadyExited
  | InsufficientCasinoFunds
  | TransferFailed
  | PermissionDenied
  | Overflow
  | DivByZero
deriving DecidableEq

/-- The execution environment of one message call. -/
structure Env where
  caller : Nat
  block_number : Nat
  transferred_value : Nat
  hashByte : List Nat → Nat
  transferOk : Nat → Nat → Bool

/-- Model of `ink::storage::Mapping::get`: first-match lookup in the association
list. -/
def mapGet {α β : Type} [DecidableEq α] : List (α × β) → α → Option β
  | [], _ => none
  | (k2, v) :: rest, k => if k2 = k then some v else mapGet rest k

/-- Model of `ink::storage::Mapping::insert`: upsert, realised by prepending. -/
def mapInsert {α β : Type} (m : List (α × β)) (k : α) (v : β) : List (α × β) :=
  (k, v) :: m

/-- Big-endian byte list of `n` in `width` bytes (`to_be_bytes`). -/
def beBytes (width n : Nat) : List Nat :=
  (List.range width).map (fun i => n / 256 ^ (width - 1 - i) % 256)

/-- Model of `u64::to_be_bytes`. -/
def u64BeBytes (n : Nat) : List Nat := beBytes 8 n

/-- Model of `u32::to_be_bytes`. -/
def u32BeBytes (n : Nat) : List Nat := beBytes 4 n

/-- The 32 bytes of an `AccountId` (`caller.as_ref()`). -/
def accountBeBytes (n : Nat) : List Nat := beBytes 32 n

/-- The salt built by `end_previous_game_if_active`:
`current_game_id.to_be_bytes() ++ block_number.to_be_bytes() ++ caller`. -/
def saltBytes (game_id block_number caller : Nat) : List Nat :=
  u64BeBytes game_id ++ u32BeBytes block_number ++ accountBeBytes caller

/-- Model of `pseudo_random`: the first byte of the `Blake2x256` hash of the salt.
The `hashByte` of the environment is reduced mod 256 because the real value is
one byte of hash output. -/
def pseudo_random (env : Env) (salt : List Nat) : Nat :=
  env.hashByte salt % 256

/-- The pure crash decision: the low bit of the first hash byte of the
salt; an even byte selects a crash. -/
def crashDecision (h : List Nat → Nat) (salt : List Nat) : Bool :=
  h salt % 256 % 2 == 0

/-- The constructor `new`: owner and block come from the environment. -/
def CrashCasino.new (caller block game_interval : Nat) : CrashCasino :=
  { owner := caller
    game_interval := game_interval
    last_game_block := block
    current_game_id := 0
    casino_pool := 0
    games := []
    players := [] }

/-- Model of `start_new_game`: open round `current_game_id + 1` at the fixed price
`10^12`.  The `u64` increment is checked. -/
def start_new_game (env : Env) (s : CrashCasino) : Except CErr CrashCasino :=
  if s.current_game_id + 1 < U64LIM then
    let game_id := s.current_game_id + 1
    let new_game : Game :=
      { id := game_id
        start_block := env.block_number
        price := SCALE
        crashed := false
        game_pool := 0 }
    .ok { s with
      games := mapInsert s.games game_id new_game
      current_game_id := game_id
      last_game_block := env.block_number }
  else .error .Overflow

/-- Model of `end_previous_game_if_active`: roll the crash decision for the current
round, if there is one and it has not crashed yet.  The `unwrap` on the
missing game is the `NoActiveRound` panic. -/
def end_previous_game_if_active (env : Env) (s : CrashCasino) :
    Except CErr CrashCasino :=
  if s.current_game_id = 0 then .ok s
  else
    match mapGet s.games s.current_game_id with
    | none => .error .NoActiveRound
    | some game =>
      if game.crashed then .ok s
      else
        let salt := saltBytes s.current_game_id env.block_number env.caller
        let chance := pseudo_random env salt % 2
        if chance = 0 then
          .ok { s with
            games := mapInsert s.games s.current_game_id
                { game with crashed := true } }
        else .ok s

/-- Model of `tick`: if the interval has elapsed, resolve the active round and open
the next one.  The `u32` addition `last_game_block + game_interval` is
checked. -/
def tick (env : Env) (s : CrashCasino) : Except CErr CrashCasino :=
  if s.last_game_block + s.game_interval < U32LIM then
    if s.last_game_block + s.game_interval ≤ env.block_number then
      match end_previous_game_if_active env s with
      | .error e => .error e
      | .ok s1 => start_new_game env s1
    else .ok s
  else .error .Overflow

/-- Model of `enter_game` (deposit): buy `amount * 10^12 / price` tokens in the
current round.  Checks mirror the source order: game exists, not crashed,
funds sent, then the checked multiplication and division, then the three
checked additions. -/
def enter_game (env : Env) (s : CrashCasino) : Except CErr CrashCasino :=
  let game_id := s.current_game_id
  match mapGet s.games game_id with
  | none => .error .NoActiveRound
  | some game =>
    if game.crashed then .error .RoundCrashed
    else
      let caller := env.caller
      let amount := env.transferred_value
      if amount = 0 then .error .NoFundsSent
      else if U128LIM ≤ amount * SCALE then .error .Overflow
      else if game.price = 0 then .error .DivByZero
      else
        let tokens := amount * SCALE / game.price
        let key := (game_id, caller)
        let player := (mapGet s.players key).getD Player.default
        if U128LIM ≤ player.token_balance + tokens then .error .Overflow
        else if U128LIM ≤ game.game_pool + amount then .error .Overflow
        else if (U128LIM : Int) ≤ s.casino_pool + (amount : Int) then
          .error .Overflow
        else
          .ok { s with
            players := mapInsert s.players key
                { token_balance := player.token_balance + tokens
                  exited := false }
            games := mapInsert s.games game_id
                { game with game_pool := game.game_pool + amount }
            casino_pool := s.casino_pool + (amount : Int) }

/-- Model of `exit_game` (withdraw): pay out `token_balance * price / 10^12` from
the casino pool to the caller.  Checks mirror the source order: game
exists, player exists, not exited, not crashed, checked multiplication,
pool sufficiency, transfer. -/
def exit_game (env : Env) (s : CrashCasino) : Except CErr CrashCasino :=
  let game_id := s.current_game_id
  match mapGet s.games game_id with
  | none => .error .NoActiveRound
  | some game =>
    let caller := env.caller
    let key := (game_id, caller)
    match mapGet s.players key with
    | none => .error .PlayerNotFound
    | some player =>
      if player.exited then .error .AlreadyExited
      else if game.crashed then .error .RoundCrashed
      else if U128LIM ≤ player.token_balance * game.price then .error .Overflow
      else
        let payout := player.token_balance * game.price / SCALE
        if (payout : Int) ≤ s.casino_pool then
          if env.transferOk caller payout then
            .ok { s with
              casino_pool := s.casino_pool - (payout : Int)
              players := mapInsert s.players key { player with exited := true } }
          else .error .TransferFailed
        else .error .InsufficientCasinoFunds

/-- Model of `set_game_interval`: owner-gated scalar update. -/
def set_game_interval (env : Env) (new_interval : Nat) (s : CrashCasino) :
    Except CErr CrashCasino :=
  if env.caller = s.owner then .ok { s with game_interval := new_interval }
  else .error .PermissionDenied

/-- A public operation together with its call environment. -/
inductive Op where
  | opTick (env : Env)
  | opEnter (env : Env)
  | opExit (env : Env)
  | opSetInterval (env : Env) (n : Nat)

/-- Dispatch one public operation. -/
def dispatch (op : Op) (s : CrashCasino) : Except CErr CrashCasino :=
  match op with
  | .opTick env => tick env s
  | .opEnter env => enter_game env s
  | .opExit env => exit_game env s
  | .opSetInterval env n => set_game_interval env n s

/-- Apply one operation with revert-on-panic semantics: a failed call
leaves the state unchanged. -/
def applyOp (op : Op) (s : CrashCasino) : CrashCasino :=
  match dispatch op s with
  | .ok s1 => s1
  | .error _ => s

/-- Run a sequence of public operations. -/
def runOps (ops : List Op) (s : CrashCasino) : CrashCasino :=
  ops.foldl (fun st op => applyOp op st) s

/-- A state reachable from a freshly constructed contract by some sequence
of public operations. -/
def Reachable (s : CrashCasino) : Prop :=
  ∃ c b i ops, s = runOps ops (CrashCasino.new c b i)

/-- The current round, when one exists, is stored in the games table. -/
def GamesInv (s : CrashCasino) : Prop :=
  s.current_game_id ≠ 0 → ∃ g, mapGet s.games s.current_game_id = some g

theorem mapGet_insert_self {α β : Type} [DecidableEq α] (m : List (α × β))
    (k : α) (v : β) : mapGet (mapInsert m k v) k = some v := by
  simp [mapGet, mapInsert]

theorem mapGet_insert_ne {α β : Type} [DecidableEq α] (m : List (α × β))
    (k k2 : α) (v : β) (h : k ≠ k2) :
    mapGet (mapInsert m k v) k2 = mapGet m k2 := by
  simp [mapGet, mapInsert, h]

theorem runOps_nil (s : CrashCasino) : runOps [] s = s := rfl

theorem runOps_cons (op : Op) (ops : List Op) (s : CrashCasino) :
    runOps (op :: ops) s = runOps ops (applyOp op s) := rfl

theorem enter_game_ok_inv {env : Env} {s s1 : CrashCasino}
    (h : enter_game env s = .ok s1) :
    ∃ game, mapGet s.games s.current_game_id = some game ∧
      game.crashed = false ∧ env.transferred_value ≠ 0 ∧ game.price ≠ 0 ∧
      s1 = { s with
        players := mapInsert s.players (s.current_game_id, env.caller)
          { token_balance := ((mapGet s.players (s.current_game_id, env.caller)).getD
                Player.default).token_balance +
              env.transferred_value * SCALE / game.price
            exited := false }
        games := mapInsert s.games s.current_game_id
          { game with game_pool := game.game_pool + env.transferred_value }
        casino_pool := s.casino_pool + (env.transferred_value : Int) } := by
  simp only [enter_game] at h
  split at h
  · exact Except.noConfusion h
  next game hg =>
    split at h
    · exact Except.noConfusion h
    next hcr =>
      split at h
      · exact Except.noConfusion h
      next hz =>
        split at h
        · exact Except.noConfusion h
        next hmul =>
          split at h
          · exact Except.noConfusion h
          next hp =>
            split at h
            · exact Except.noConfusion h
            next hb =>
              split at h
              · exact Except.noConfusion h
              next hgp =>
                split at h
                · exact Except.noConfusion h
                next hcp =>
                  exact ⟨game, hg, Bool.not_eq_true _ ▸ hcr, hz, hp,
                    (Except.ok.inj h).symm⟩

theorem exit_game_ok_inv {env : Env} {s s1 : CrashCasino}
    (h : exit_game env s = .ok s1) :
    ∃ game player, mapGet s.games s.current_game_id = some game ∧
      mapGet s.players (s.current_game_id, env.caller) = some player ∧
      player.exited = false ∧ game.crashed = false ∧
      player.token_balance * game.price < U128LIM ∧
      ((player.token_balance * game.price / SCALE : Nat) : Int) ≤ s.casino_pool ∧
      env.transferOk env.caller (player.token_balance * game.price / SCALE) = true ∧
      s1 = { s with
        casino_pool := s.casino_pool -
          ((player.token_balance * game.price / SCALE : Nat) : Int)
        players := mapInsert s.players (s.current_game_id, env.caller)
          { player with exited := true } } := by
  simp only [exit_game] at h
  split at h
  · exact Except.noConfusion h
  next game hg =>
    split at h
    · exact Except.noConfusion h
    next player hp =>
      split at h
      · exact Except.noConfusion h
      next hex =>
        split at h
        · exact Except.noConfusion h
        next hcr =>
          split at h
          · exact Except.noConfusion h
          next hmul =>
            split at h
            next hpool =>
              split at h
              next htr =>
                exact ⟨game, player, hg, hp, Bool.not_eq_true _ ▸ hex,
                  Bool.not_eq_true _ ▸ hcr, Nat.not_le.mp hmul, hpool,
                  htr, (Except.ok.inj h).symm⟩
              next htr => exact Except.noConfusion h
            next hpool => exact Except.noConfusion h

theorem start_new_game_ok_inv {env : Env} {s s1 : CrashCasino}
    (h : start_new_game env s = .ok s1) :
    s.current_game_id + 1 < U64LIM ∧
    s1 = { s with
      games := mapInsert s.games (s.current_game_id + 1)
        { id := s.current_game_id + 1
          start_block := env.block_number
          price := SCALE
          crashed := false
          game_pool := 0 }
      current_game_id := s.current_game_id + 1
      last_game_block := env.block_number } := by
  simp only [start_new_game] at h
  split at h
  next hlt => exact ⟨hlt, (Except.ok.inj h).symm⟩
  next hlt => exact Except.noConfusion h

theorem end_previous_ok_inv {env : Env} {s s1 : CrashCasino}
    (h : end_previous_game_if_active env s = .ok s1) :
    s1.players = s.players ∧ s1.casino_pool = s.casino_pool ∧
    s1.current_game_id = s.current_game_id ∧
    s1.last_game_block = s.last_game_block ∧
    s1.game_interval = s.game_interval ∧ s1.owner = s.owner ∧
    (s1.games = s.games ∨
      ∃ game, mapGet s.games s.current_game_id = some game ∧
        s1.games = mapInsert s.games s.current_game_id
          { game with crashed := true }) := by
  simp only [end_previous_game_if_active] at h
  split at h
  · cases Except.ok.inj h; exact ⟨rfl, rfl, rfl, rfl, rfl, rfl, Or.inl rfl⟩
  · split at h
    · exact Except.noConfusion h
    next game hg =>
      split at h
      · cases Except.ok.inj h; exact ⟨rfl, rfl, rfl, rfl, rfl, rfl, Or.inl rfl⟩
      · split at h
        · cases Except.ok.inj h
          exact ⟨rfl, rfl, rfl, rfl, rfl, rfl, Or.inr ⟨game, hg, rfl⟩⟩
        · cases Except.ok.inj h
          exact ⟨rfl, rfl, rfl, rfl, rfl, rfl, Or.inl rfl⟩

theorem tick_ok_inv {env : Env} {s s1 : CrashCasino}
    (h : tick env s = .ok s1) :
    s1 = s ∨ ∃ s2, end_previous_game_if_active env s = .ok s2 ∧
      start_new_game env s2 = .ok s1 := by
  simp only [tick] at h
  split at h
  · split at h
    · split at h
      · exact Except.noConfusion h
      next s2 hend => exact Or.inr ⟨s2, hend, h⟩
    · exact Or.inl (Except.ok.inj h).symm
  · exact Except.noConfusion h

theorem set_game_interval_ok_inv {env : Env} {n : Nat} {s s1 : CrashCasino}
    (h : set_game_interval env n s = .ok s1) :
    s1 = { s with game_interval := n } := by
  simp only [set_game_interval] at h
  split at h
  · exact (Except.ok.inj h).symm
  · exact Except.noConfusion h

theorem enter_game_eq (env : Env) (s : CrashCasino) (game : Game)
    (hg : mapGet s.games s.current_game_id = some game)
    (hnc : game.crashed = false)
    (hamt : env.transferred_value ≠ 0)
    (hmul : env.transferred_value * SCALE < U128LIM)
    (hprice : game.price ≠ 0)
    (hbal : ((mapGet s.players (s.current_game_id, env.caller)).getD
        Player.default).token_balance +
        env.transferred_value * SCALE / game.price < U128LIM)
    (hgp : game.game_pool + env.transferred_value < U128LIM)
    (hcp : s.casino_pool + (env.transferred_value : Int) < (U128LIM : Int)) :
    enter_game env s = .ok { s with
      players := mapInsert s.players (s.current_game_id, env.caller)
        { token_balance := ((mapGet s.players (s.current_game_id, env.caller)).getD
              Player.default).token_balance +
            env.transferred_value * SCALE / game.price
          exited := false }
      games := mapInsert s.games s.current_game_id
        { game with game_pool := game.game_pool + env.transferred_value }
      casino_pool := s.casino_pool + (env.transferred_value : Int) } := by
  simp only [enter_game, hg]
  rw [if_neg (by simp [hnc]), if_neg hamt, if_neg (Nat.not_le.mpr hmul),
    if_neg hprice, if_neg (Nat.not_le.mpr hbal), if_neg (Nat.not_le.mpr hgp),
    if_neg (not_le.mpr hcp)]

theorem exit_game_eq (env : Env) (s : CrashCasino) (game : Game) (player : Player)
    (hg : mapGet s.games s.current_game_id = some game)
    (hp : mapGet s.players (s.current_game_id, env.caller) = some player)
    (hex : player.exited = false)
    (hnc : game.crashed = false)
    (hmul : player.token_balance * game.price < U128LIM)
    (hpool : ((player.token_balance * game.price / SCALE : Nat) : Int) ≤ s.casino_pool)
    (htr : env.transferOk env.caller (player.token_balance * game.price / SCALE) = true) :
    exit_game env s = .ok { s with
      casino_pool := s.casino_pool -
        ((player.token_balance * game.price / SCALE : Nat) : Int)
      players := mapInsert s.players (s.current_game_id, env.caller)
        { player with exited := true } } := by
  simp only [exit_game, hg, hp]
  rw [if_neg (by simp [hex]), if_neg (by simp [hnc]), if_neg (Nat.not_le.mpr hmul),
    if_pos hpool, if_pos htr]

theorem exit_game_insufficient (env : Env) (s : CrashCasino) (game : Game)
    (player : Player)
    (hg : mapGet s.games s.current_game_id = some game)
    (hp : mapGet s.players (s.current_game_id, env.caller) = some player)
    (hex : player.exited = false)
    (hnc : game.crashed = false)
    (hmul : player.token_balance * game.price < U128LIM)
    (hpool : s.casino_pool < ((player.token_balance * game.price / SCALE : Nat) : Int)) :
    exit_game env s = .error .InsufficientCasinoFunds := by
  simp only [exit_game, hg, hp]
  rw [if_neg (by simp [hex]), if_neg (by simp [hnc]), if_neg (Nat.not_le.mpr hmul),
    if_neg (not_le.mpr hpool)]

theorem exit_game_already (env : Env) (s : CrashCasino) (game : Game)
    (player : Player)
    (hg : mapGet s.games s.current_game_id = some game)
    (hp : mapGet s.players (s.current_game_id, env.caller) = some player)
    (hex : player.exited = true) :
    exit_game env s = .error .AlreadyExited := by
  simp only [exit_game, hg, hp]
  rw [if_pos hex]

theorem enter_game_crashed (env : Env) (s : CrashCasino) (game : Game)
    (hg : mapGet s.games s.current_game_id = some game)
    (hcr : game.crashed = true) :
    enter_game env s = .error .RoundCrashed := by
  simp only [enter_game, hg]
  rw [if_pos hcr]

theorem exit_game_crashed (env : Env) (s : CrashCasino) (game : Game)
    (player : Player)
    (hg : mapGet s.games s.current_game_id = some game)
    (hp : mapGet s.players (s.current_game_id, env.caller) = some player)
    (hex : player.exited = false)
    (hcr : game.crashed = true) :
    exit_game env s = .error .RoundCrashed := by
  simp only [exit_game, hg, hp]
  rw [if_neg (by simp [hex]), if_pos hcr]

theorem exit_game_crashed_not_ok (env : Env) (s : CrashCasino) (game : Game)
    (hg : mapGet s.games s.current_game_id = some game)
    (hcr : game.crashed = true) :
    ∀ s1, exit_game env s ≠ .ok s1 := by
  intro s1 h
  obtain ⟨g2, p2, hg2, _, _, hnc2, _⟩ := exit_game_ok_inv h
  rw [hg] at hg2
  cases Option.some.inj hg2
  rw [hcr] at hnc2
  exact Bool.noConfusion hnc2

theorem end_previous_eq (env : Env) (s : CrashCasino) (game : Game)
    (h0 : s.current_game_id ≠ 0)
    (hg : mapGet s.games s.current_game_id = some game)
    (hnc : game.crashed = false) :
    end_previous_game_if_active env s =
      .ok (if crashDecision env.hashByte
              (saltBytes s.current_game_id env.block_number env.caller)
           then { s with games := mapInsert s.games s.current_game_id { game with crashed := true } }
           else s) := by
  simp only [end_previous_game_if_active, hg]
  rw [if_neg h0, if_neg (by simp [hnc])]
  by_cases hd : env.hashByte (saltBytes s.current_game_id env.block_number env.caller)
      % 256 % 2 = 0
  · rw [if_pos (by simpa [pseudo_random] using hd),
      if_pos (by simp [crashDecision, hd])]
  · rw [if_neg (by simpa [pseudo_random] using hd),
      if_neg (by simp [crashDecision, hd])]

theorem applyOp_pool_nonneg (op : Op) (s : CrashCasino)
    (h : 0 ≤ s.casino_pool) : 0 ≤ (applyOp op s).casino_pool := by
  unfold applyOp
  split
  case h_2 => exact h
  case h_1 s1 hd =>
    cases op with
    | opTick env =>
      simp only [dispatch] at hd
      rcases tick_ok_inv hd with rfl | ⟨s2, hend, hstart⟩
      · exact h
      · rw [(start_new_game_ok_inv hstart).2]
        simpa [(end_previous_ok_inv hend).2.1] using h
    | opEnter env =>
      simp only [dispatch] at hd
      obtain ⟨game, _, _, _, _, rfl⟩ := enter_game_ok_inv hd
      exact add_nonneg h (Int.ofNat_nonneg _)
    | opExit env =>
      simp only [dispatch] at hd
      obtain ⟨g, p, _, _, _, _, _, hpool, _, rfl⟩ := exit_game_ok_inv hd
      simpa using sub_nonneg.mpr hpool
    | opSetInterval env n =>
      simp only [dispatch] at hd
      rw [set_game_interval_ok_inv hd]
      exact h

theorem runOps_pool_nonneg (ops : List Op) (s : CrashCasino)
    (h : 0 ≤ s.casino_pool) : 0 ≤ (runOps ops s).casino_pool := by
  induction ops generalizing s with
  | nil => exact h
  | cons op ops ih => rw [runOps_cons]; exact ih _ (applyOp_pool_nonneg op s h)

theorem applyOp_current_mono (op : Op) (s : CrashCasino) :
    s.current_game_id ≤ (applyOp op s).current_game_id := by
  unfold applyOp
  split
  case h_2 => exact le_refl _
  case h_1 s1 hd =>
    cases op with
    | opTick env =>
      simp only [dispatch] at hd
      rcases tick_ok_inv hd with rfl | ⟨s2, hend, hstart⟩
      · exact le_refl _
      · rw [(start_new_game_ok_inv hstart).2]
        simp only
        rw [(end_previous_ok_inv hend).2.2.1]
        exact Nat.le_succ _
    | opEnter env =>
      simp only [dispatch] at hd
      obtain ⟨game, _, _, _, _, rfl⟩ := enter_game_ok_inv hd
      exact le_refl _
    | opExit env =>
      simp only [dispatch] at hd
      obtain ⟨g, p, _, _, _, _, _, _, _, rfl⟩ := exit_game_ok_inv hd
      exact le_refl _
    | opSetInterval env n =>
      simp only [dispatch] at hd
      rw [set_game_interval_ok_inv hd]

theorem applyOp_players_frozen (op : Op) (s : CrashCasino) (r a : Nat)
    (hr : r ≠ s.current_game_id) :
    mapGet (applyOp op s).players (r, a) = mapGet s.players (r, a) := by
  unfold applyOp
  split
  case h_2 => rfl
  case h_1 s1 hd =>
    cases op with
    | opTick env =>
      simp only [dispatch] at hd
      rcases tick_ok_inv hd with rfl | ⟨s2, hend, hstart⟩
      · rfl
      · rw [(start_new_game_ok_inv hstart).2]
        simp only
        rw [(end_previous_ok_inv hend).1]
    | opEnter env =>
      simp only [dispatch] at hd
      obtain ⟨game, _, _, _, _, rfl⟩ := enter_game_ok_inv hd
      exact mapGet_insert_ne _ _ _ _ (by simp [Ne.symm hr])
    | opExit env =>
      simp only [dispatch] at hd
      obtain ⟨g, p, _, _, _, _, _, _, _, rfl⟩ := exit_game_ok_inv hd
      exact mapGet_insert_ne _ _ _ _ (by simp [Ne.symm hr])
    | opSetInterval env n =>
      simp only [dispatch] at hd
      rw [set_game_interval_ok_inv hd]

theorem applyOp_gamesInv (op : Op) (s : CrashCasino) (h : GamesInv s) :
    GamesInv (applyOp op s) := by
  unfold applyOp
  split
  case h_2 => exact h
  case h_1 s1 hd =>
    cases op with
    | opTick env =>
      simp only [dispatch] at hd
      rcases tick_ok_inv hd with rfl | ⟨s2, hend, hstart⟩
      · exact h
      · rw [(start_new_game_ok_inv hstart).2]
        intro _
        exact ⟨_, mapGet_insert_self _ _ _⟩
    | opEnter env =>
      simp only [dispatch] at hd
      obtain ⟨game, _, _, _, _, rfl⟩ := enter_game_ok_inv hd
      intro _
      exact ⟨_, mapGet_insert_self _ _ _⟩
    | opExit env =>
      simp only [dispatch] at hd
      obtain ⟨g, p, _, _, _, _, _, _, _, rfl⟩ := exit_game_ok_inv hd
      exact h
    | opSetInterval env n =>
      simp only [dispatch] at hd
      rw [set_game_interval_ok_inv hd]
      exact h

theorem runOps_gamesInv (ops : List Op) (s : CrashCasino) (h : GamesInv s) :
    GamesInv (runOps ops s) := by
  induction ops generalizing s with
  | nil => exact h
  | cons op ops ih => rw [runOps_cons]; exact ih _ (applyOp_gamesInv op s h)

theorem reachable_gamesInv {s : CrashCasino} (h : Reachable s) : GamesInv s := by
  obtain ⟨c, b, i, ops, rfl⟩ := h
  exact runOps_gamesInv ops _ (fun h0 => absurd rfl h0)

theorem end_previous_total (env : Env) (s : CrashCasino) (hinv : GamesInv s) :
    ∃ s2, end_previous_game_if_active env s = .ok s2 ∧
      s2.current_game_id = s.current_game_id := by
  by_cases h0 : s.current_game_id = 0
  · exact ⟨s, by simp [end_previous_game_if_active, h0], rfl⟩
  · obtain ⟨g, hg⟩ := hinv h0
    by_cases hcr : g.crashed = true
    · refine ⟨s, ?_, rfl⟩
      simp only [end_previous_game_if_active, hg]
      rw [if_neg h0, if_pos hcr]
    · rw [end_previous_eq env s g h0 hg (Bool.not_eq_true _ ▸ hcr)]
      by_cases hd : crashDecision env.hashByte
          (saltBytes s.current_game_id env.block_number env.caller) = true
      · rw [if_pos hd]
        exact ⟨_, rfl, rfl⟩
      · rw [if_neg hd]
        exact ⟨s, rfl, rfl⟩

theorem SCALE_pos : 0 < SCALE := by norm_num [SCALE]

theorem roundtrip_le (a p : Nat) : a * SCALE / p * p / SCALE ≤ a := by
  calc a * SCALE / p * p / SCALE
      ≤ a * SCALE / SCALE := Nat.div_le_div_right (Nat.div_mul_le_self _ _)
    _ = a := Nat.mul_div_cancel a SCALE_pos

theorem roundtrip_exact (a p : Nat) (hp : p ≠ 0) (hd : p ∣ a) :
    a * SCALE / p * p / SCALE = a := by
  obtain ⟨k, rfl⟩ := hd
  have h1 : p * k * SCALE / p = k * SCALE := by
    rw [Nat.mul_assoc, Nat.mul_div_cancel_left _ (Nat.pos_of_ne_zero hp)]
  rw [h1, Nat.mul_right_comm k SCALE p, Nat.mul_div_cancel _ SCALE_pos,
    Nat.mul_comm k p]

/-- Claim C1: starting from a freshly constructed contract, `casino_pool`
is never negative after any sequence of public operations; and any
withdraw whose computed payout `floor(token_balance * price / 10^12)`
exceeds `casino_pool` fails with `InsufficientCasinoFunds` (an error
reverts the call, so `casino_pool` and all other state are unchanged). -/
theorem claim1_casino_pool_never_negative :
    (∀ (c b i : Nat) (ops : List Op),
      0 ≤ (runOps ops (CrashCasino.new c b i)).casino_pool) ∧
    (∀ (env : Env) (s : CrashCasino) (game : Game) (player : Player),
      mapGet s.games s.current_game_id = some game →
      mapGet s.players (s.current_game_id, env.caller) = some player →
      player.exited = false → game.crashed = false →
      player.token_balance * game.price < U128LIM →
      s.casino_pool < ((player.token_balance * game.price / SCALE : Nat) : Int) →
      exit_game env s = .error .InsufficientCasinoFunds) := by
  constructor
  · intro c b i ops
    exact runOps_pool_nonneg ops _ (le_refl 0)
  · intro env s game player hg hp hex hnc hmul hpool
    exact exit_game_insufficient env s game player hg hp hex hnc hmul hpool

/-- Witness for C1: a concrete run of operations keeps the pool at zero or
above, and a concrete underfunded withdraw fails with
`InsufficientCasinoFunds`. -/
theorem claim1_witness :
    0 ≤ (runOps [Op.opTick ⟨5, 1, 0, fun _ => 1, fun _ _ => true⟩,
        Op.opEnter ⟨9, 1, 3000000000000, fun _ => 1, fun _ _ => true⟩,
        Op.opExit ⟨9, 1, 0, fun _ => 1, fun _ _ => true⟩]
      (CrashCasino.new 7 0 1)).casino_pool ∧
    exit_game ⟨9, 1, 0, fun _ => 1, fun _ _ => true⟩
      ⟨7, 1, 0, 1, 5, [(1, ⟨1, 0, SCALE, false, 0⟩)],
        [((1, 9), ⟨2000000000000, false⟩)]⟩ =
      .error .InsufficientCasinoFunds :=
  ⟨claim1_casino_pool_never_negative.1 7 0 1 _,
   claim1_casino_pool_never_negative.2 _ _ ⟨1, 0, SCALE, false, 0⟩
     ⟨2000000000000, false⟩ (by decide) (by decide) (by decide) (by decide)
     (by decide) (by decide)⟩

/-- Claim C8: deposits and withdrawals act only on the round numbered
`current_game_id`, and `current_game_id` never decreases; hence for any
superseded round `r` (`0 < r < current_game_id`) no sequence of public
operations ever changes the player record keyed by `r`, so tokens left in
a superseded round are permanently unredeemable. -/
theorem claim8_superseded_rounds_frozen (ops : List Op) (s : CrashCasino)
    (r a : Nat) (h0 : 0 < r) (hr : r < s.current_game_id) :
    mapGet (runOps ops s).players (r, a) = mapGet s.players (r, a) ∧
    r < (runOps ops s).current_game_id := by
  induction ops generalizing s with
  | nil => exact ⟨rfl, hr⟩
  | cons op ops ih =>
    rw [runOps_cons]
    have hmono := applyOp_current_mono op s
    have hfr := applyOp_players_frozen op s r a (Nat.ne_of_lt hr)
    have hrec := ih (applyOp op s) (lt_of_lt_of_le hr hmono)
    exact ⟨hrec.1.trans hfr, hrec.2⟩

/-- Witness for C8: with round 2 current, a deposit, an exit and a tick
leave the round-1 record of account 9 untouched. -/
theorem claim8_witness :
    mapGet (runOps [Op.opEnter ⟨9, 2, 4000000000000, fun _ => 1, fun _ _ => true⟩,
        Op.opExit ⟨9, 2, 0, fun _ => 1, fun _ _ => true⟩,
        Op.opTick ⟨3, 9, 0, fun _ => 0, fun _ _ => true⟩]
      ⟨7, 1, 2, 2, 5, [(2, ⟨2, 2, SCALE, false, 0⟩), (1, ⟨1, 1, SCALE, false, 0⟩)],
        [((1, 9), ⟨5, false⟩)]⟩).players (1, 9) =
      mapGet [((1, 9), (⟨5, false⟩ : Player))] (1, 9) ∧
    1 < (runOps [Op.opEnter ⟨9, 2, 4000000000000, fun _ => 1, fun _ _ => true⟩,
        Op.opExit ⟨9, 2, 0, fun _ => 1, fun _ _ => true⟩,
        Op.opTick ⟨3, 9, 0, fun _ => 0, fun _ _ => true⟩]
      ⟨7, 1, 2, 2, 5, [(2, ⟨2, 2, SCALE, false, 0⟩), (1, ⟨1, 1, SCALE, false, 0⟩)],
        [((1, 9), ⟨5, false⟩)]⟩).current_game_id :=
  claim8_superseded_rounds_frozen _ _ 1 9 (by decide) (by decide)

/-- Claim C9: the crash decision of `end_previous_game_if_active` is the
pure function `crashDecision` of the seed bytes `(current round id, block
number, caller)`: an even first hash byte crashes the round, an odd one
leaves it untouched, and nothing else of the state influences or is
changed by the decision; moreover the even-byte convention is exactly the
low bit of the first hash byte. -/
theorem claim9_crash_decision_pure :
    (∀ (env : Env) (s : CrashCasino) (game : Game),
      s.current_game_id ≠ 0 →
      mapGet s.games s.current_game_id = some game →
      game.crashed = false →
      end_previous_game_if_active env s =
        .ok (if crashDecision env.hashByte
                (saltBytes s.current_game_id env.block_number env.caller)
             then { s with games := mapInsert s.games s.current_game_id { game with crashed := true } }
             else s)) ∧
    (∀ (h : List Nat → Nat) (salt : List Nat),
      crashDecision h salt = true ↔ h salt % 256 % 2 = 0) := by
  constructor
  · intro env s game h0 hg hnc
    exact end_previous_eq env s game h0 hg hnc
  · intro h salt
    simp [crashDecision]

/-- Witness for C9: with an odd first hash byte the concrete round
survives unchanged. -/
theorem claim9_witness :
    end_previous_game_if_active ⟨5, 3, 0, fun _ => 1, fun _ _ => true⟩
      ⟨7, 1, 1, 1, 0, [(1, ⟨1, 1, SCALE, false, 0⟩)], []⟩ =
      .ok ⟨7, 1, 1, 1, 0, [(1, ⟨1, 1, SCALE, false, 0⟩)], []⟩ := by
  have h := claim9_crash_decision_pure.1 ⟨5, 3, 0, fun _ => 1, fun _ _ => true⟩
    ⟨7, 1, 1, 1, 0, [(1, ⟨1, 1, SCALE, false, 0⟩)], []⟩
    ⟨1, 1, SCALE, false, 0⟩ (by decide) (by decide) (by decide)
  simpa [crashDecision] using h

/-- Counterexample for C10: `tick` is not failure-free.  After opening
round 1 at block 1 the owner sets `game_interval = u32::MAX`; the next
`tick` evaluates `last_game_block + game_interval = 1 + (2^32 - 1)`,
which overflows `u32`, so the eligibility comparison panics. -/
theorem claim10_tick_overflow_counterexample :
    tick ⟨5, 9, 0, fun _ => 1, fun _ _ => true⟩
      (runOps [Op.opTick ⟨5, 1, 0, fun _ => 1, fun _ _ => true⟩,
          Op.opSetInterval ⟨7, 2, 0, fun _ => 1, fun _ _ => true⟩ 4294967295]
        (CrashCasino.new 7 0 1)) = .error .Overflow := by
  decide

/-- Claim C10 (amended): `tick` is callable by anyone and succeeds for
every caller and block number — a no-op counting as success — on every
reachable state in which the eligibility addition
`last_game_block + game_interval` fits in `u32` and the next round id
fits in `u64`; if the `u32` addition overflows, `tick` fails. -/
theorem claim10_tick_total (env : Env) (s : CrashCasino) (hre : Reachable s)
    (h32 : s.last_game_block + s.game_interval < U32LIM)
    (h64 : s.current_game_id + 1 < U64LIM) :
    ∃ s1, tick env s = .ok s1 := by
  have hinv := reachable_gamesInv hre
  simp only [tick]
  rw [if_pos h32]
  by_cases helig : s.last_game_block + s.game_interval ≤ env.block_number
  · rw [if_pos helig]
    obtain ⟨s2, hend, hcur⟩ := end_previous_total env s hinv
    simp only [hend]
    have h64b : s2.current_game_id + 1 < U64LIM := by rw [hcur]; exact h64
    simp [start_new_game, h64b]
  · rw [if_neg helig]
    exact ⟨s, rfl⟩

/-- Witness for C10 (amended): on a fresh contract a `tick` succeeds. -/
theorem claim10_witness :
    ∃ s1, tick ⟨3, 5, 0, fun _ => 1, fun _ _ => true⟩
      (CrashCasino.new 7 0 1) = .ok s1 :=
  claim10_tick_total _ _ ⟨7, 0, 1, [], rfl⟩ (by decide) (by decide)

/-- Counterexample for C4: a surviving round is not re-rolled by the next
eligible `tick`.  With an odd (survive) hash, the second `tick` leaves
round 1 open but immediately opens round 2 (`current_game_id = 2`); the
third `tick`, with an even (crash) hash, rolls round 2 — which crashes —
while the record of round 1 is left byte-identical and open forever. -/
theorem claim4_counterexample :
    (runOps [Op.opTick ⟨5, 1, 0, fun _ => 1, fun _ _ => true⟩,
        Op.opTick ⟨5, 2, 0, fun _ => 1, fun _ _ => true⟩]
      (CrashCasino.new 7 0 1)).current_game_id = 2 ∧
    mapGet (runOps [Op.opTick ⟨5, 1, 0, fun _ => 1, fun _ _ => true⟩,
        Op.opTick ⟨5, 2, 0, fun _ => 1, fun _ _ => true⟩]
      (CrashCasino.new 7 0 1)).games 1 = some ⟨1, 1, SCALE, false, 0⟩ ∧
    mapGet (runOps [Op.opTick ⟨5, 1, 0, fun _ => 1, fun _ _ => true⟩,
        Op.opTick ⟨5, 2, 0, fun _ => 1, fun _ _ => true⟩,
        Op.opTick ⟨5, 3, 0, fun _ => 0, fun _ _ => true⟩]
      (CrashCasino.new 7 0 1)).games 1 = some ⟨1, 1, SCALE, false, 0⟩ ∧
    mapGet (runOps [Op.opTick ⟨5, 1, 0, fun _ => 1, fun _ _ => true⟩,
        Op.opTick ⟨5, 2, 0, fun _ => 1, fun _ _ => true⟩,
        Op.opTick ⟨5, 3, 0, fun _ => 0, fun _ _ => true⟩]
      (CrashCasino.new 7 0 1)).games 2 = some ⟨2, 2, SCALE, true, 0⟩ := by
  decide

/-- Claim C4 (amended): an eligible `tick` whose oracle outcome is
non-crash leaves the record of the active round unchanged (its `crashed` flag
stays `false`, so the round never resolves), but the same `tick` also
opens a new round and increments `current_game_id`; the surviving round
is therefore superseded, and the next eligible `tick` rolls the newly
opened round — never the surviving one. -/
theorem claim4_survive_superseded (env : Env) (s : CrashCasino) (game : Game)
    (h32 : s.last_game_block + s.game_interval < U32LIM)
    (helig : s.last_game_block + s.game_interval ≤ env.block_number)
    (h0 : s.current_game_id ≠ 0)
    (h64 : s.current_game_id + 1 < U64LIM)
    (hg : mapGet s.games s.current_game_id = some game)
    (hnc : game.crashed = false)
    (hsv : crashDecision env.hashByte
      (saltBytes s.current_game_id env.block_number env.caller) = false) :
    ∃ s1, tick env s = .ok s1 ∧
      mapGet s1.games s.current_game_id = some game ∧
      s1.current_game_id = s.current_game_id + 1 := by
  have hstart : start_new_game env s = Except.ok { s with
      games := mapInsert s.games (s.current_game_id + 1)
        ⟨s.current_game_id + 1, env.block_number, SCALE, false, 0⟩
      current_game_id := s.current_game_id + 1
      last_game_block := env.block_number } := by
    simp only [start_new_game]
    rw [if_pos h64]
  have htick : tick env s = Except.ok { s with
      games := mapInsert s.games (s.current_game_id + 1)
        ⟨s.current_game_id + 1, env.block_number, SCALE, false, 0⟩
      current_game_id := s.current_game_id + 1
      last_game_block := env.block_number } := by
    simp only [tick]
    rw [if_pos h32, if_pos helig, end_previous_eq env s game h0 hg hnc,
      if_neg (by simp [hsv])]
    exact hstart
  refine ⟨_, htick, ?_, rfl⟩
  exact (mapGet_insert_ne s.games _ s.current_game_id _
    (Nat.succ_ne_self _)).trans hg

/-- Witness for C4 (amended): round 1 survives a concrete eligible tick,
stays open, and round 2 becomes current. -/
theorem claim4_witness :
    ∃ s1, tick ⟨5, 2, 0, fun _ => 1, fun _ _ => true⟩
        ⟨7, 1, 1, 1, 0, [(1, ⟨1, 1, SCALE, false, 0⟩)], []⟩ = .ok s1 ∧
      mapGet s1.games 1 = some ⟨1, 1, SCALE, false, 0⟩ ∧
      s1.current_game_id = 1 + 1 :=
  claim4_survive_superseded _ _ _ (by decide) (by decide) (by decide)
    (by decide) (by decide) (by decide) (by decide)

/-- Counterexample for C5: a valid deposit of `2_000_000_000_000` at
price `1_000_000_000_000` credits `2_000_000_000_000` token units — the
value of `floor(amount * 10^12 / price)` — not `2`. -/
theorem claim5_two_tokens_counterexample :
    Except.map (fun s1 => mapGet s1.players (1, 9))
      (enter_game ⟨9, 1, 2000000000000, fun _ => 1, fun _ _ => true⟩
        ⟨7, 1, 0, 1, 0, [(1, ⟨1, 0, SCALE, false, 0⟩)], []⟩) =
      .ok (some ⟨2000000000000, false⟩) ∧
    Except.map (fun s1 => mapGet s1.players (1, 9))
      (enter_game ⟨9, 1, 2000000000000, fun _ => 1, fun _ _ => true⟩
        ⟨7, 1, 0, 1, 0, [(1, ⟨1, 0, SCALE, false, 0⟩)], []⟩) ≠
      .ok (some ⟨2, false⟩) := by
  decide

/-- Claim C5 (amended): for every valid deposit the tokens credited equal
`floor(amount * 10^12 / price)` with the price of the current round; at
`amount = 2_000_000_000_000` and `price = 10^12` this credits
`2_000_000_000_000` token units (two whole tokens at the `10^12` token
scale), not the literal number 2. -/
theorem claim5_deposit_tokens_formula (env : Env) (s : CrashCasino)
    (game : Game)
    (hg : mapGet s.games s.current_game_id = some game)
    (hnc : game.crashed = false)
    (hamt : env.transferred_value ≠ 0)
    (hmul : env.transferred_value * SCALE < U128LIM)
    (hprice : game.price ≠ 0)
    (hbal : ((mapGet s.players (s.current_game_id, env.caller)).getD
        Player.default).token_balance +
        env.transferred_value * SCALE / game.price < U128LIM)
    (hgp : game.game_pool + env.transferred_value < U128LIM)
    (hcp : s.casino_pool + (env.transferred_value : Int) < (U128LIM : Int)) :
    ∃ s1, enter_game env s = .ok s1 ∧
      mapGet s1.players (s.current_game_id, env.caller) =
        some ⟨((mapGet s.players (s.current_game_id, env.caller)).getD
            Player.default).token_balance +
          env.transferred_value * SCALE / game.price, false⟩ :=
  ⟨_, enter_game_eq env s game hg hnc hamt hmul hprice hbal hgp hcp,
    mapGet_insert_self _ _ _⟩

/-- Witness for C5 (amended): the concrete deposit of the claim credits
`0 + 2000000000000 * SCALE / SCALE` token units. -/
theorem claim5_witness :
    ∃ s1, enter_game ⟨9, 1, 2000000000000, fun _ => 1, fun _ _ => true⟩
        ⟨7, 1, 0, 1, 0, [(1, ⟨1, 0, SCALE, false, 0⟩)], []⟩ = .ok s1 ∧
      mapGet s1.players (1, 9) =
        some ⟨0 + 2000000000000 * SCALE / SCALE, false⟩ :=
  claim5_deposit_tokens_formula ⟨9, 1, 2000000000000, fun _ => 1, fun _ _ => true⟩
    ⟨7, 1, 0, 1, 0, [(1, ⟨1, 0, SCALE, false, 0⟩)], []⟩
    ⟨1, 0, SCALE, false, 0⟩ (by decide) (by decide) (by decide)
    (by decide) (by decide) (by decide) (by decide) (by decide)

/-- Counterexample for C6: a withdraw against a crashed round does not
always fail with `RoundCrashed` — a player who already exited gets
`AlreadyExited` instead, because the exit check precedes the crash
check. -/
theorem claim6_counterexample :
    exit_game ⟨9, 1, 0, fun _ => 1, fun _ _ => true⟩
      ⟨7, 1, 0, 1, 100, [(1, ⟨1, 0, SCALE, true, 5000000000000⟩)],
        [((1, 9), ⟨5000000000000, true⟩)]⟩ = .error .AlreadyExited ∧
    exit_game ⟨9, 1, 0, fun _ => 1, fun _ _ => true⟩
      ⟨7, 1, 0, 1, 100, [(1, ⟨1, 0, SCALE, true, 5000000000000⟩)],
        [((1, 9), ⟨5000000000000, true⟩)]⟩ ≠ .error .RoundCrashed := by
  decide

/-- Claim C6 (amended): when the current round has crashed, every deposit
fails with `RoundCrashed`; a withdraw by a caller holding a non-exited
record also fails with `RoundCrashed`, while a missing record yields
`PlayerNotFound` and an exited record `AlreadyExited`; in every case the
call reverts, so no withdraw against a crashed round ever succeeds and no
balances change. -/
theorem claim6_crashed_rejects :
    (∀ (env : Env) (s : CrashCasino) (game : Game),
      mapGet s.games s.current_game_id = some game → game.crashed = true →
      enter_game env s = .error .RoundCrashed) ∧
    (∀ (env : Env) (s : CrashCasino) (game : Game) (player : Player),
      mapGet s.games s.current_game_id = some game →
      mapGet s.players (s.current_game_id, env.caller) = some player →
      player.exited = false → game.crashed = true →
      exit_game env s = .error .RoundCrashed) ∧
    (∀ (env : Env) (s : CrashCasino) (game : Game),
      mapGet s.games s.current_game_id = some game → game.crashed = true →
      ∀ s1, exit_game env s ≠ .ok s1) :=
  ⟨fun env s game hg hcr => enter_game_crashed env s game hg hcr,
   fun env s game player hg hp hex hcr =>
     exit_game_crashed env s game player hg hp hex hcr,
   fun env s game hg hcr => exit_game_crashed_not_ok env s game hg hcr⟩

/-- Witness for C6 (amended): on a concrete crashed round, a deposit and
a withdraw by a non-exited player both fail with `RoundCrashed`. -/
theorem claim6_witness :
    enter_game ⟨9, 1, 1000000000000, fun _ => 1, fun _ _ => true⟩
      ⟨7, 1, 0, 1, 100, [(1, ⟨1, 0, SCALE, true, 5000000000000⟩)],
        [((1, 9), ⟨5000000000000, false⟩)]⟩ = .error .RoundCrashed ∧
    exit_game ⟨9, 1, 0, fun _ => 1, fun _ _ => true⟩
      ⟨7, 1, 0, 1, 100, [(1, ⟨1, 0, SCALE, true, 5000000000000⟩)],
        [((1, 9), ⟨5000000000000, false⟩)]⟩ = .error .RoundCrashed :=
  ⟨claim6_crashed_rejects.1 _ _ ⟨1, 0, SCALE, true, 5000000000000⟩
     (by decide) (by decide),
   claim6_crashed_rejects.2.1 _ _ ⟨1, 0, SCALE, true, 5000000000000⟩
     ⟨5000000000000, false⟩ (by decide) (by decide) (by decide) (by decide)⟩

/-- Claim C7: once a withdraw has set the `exited` flag of a player, any
withdraw by an account whose record for the current round has
`exited = true` fails with `AlreadyExited`; in particular the second of
two consecutive withdraw calls by the same account fails (the error
reverts, leaving the state exactly as after the first call). -/
theorem claim7_withdraw_twice :
    (∀ (env : Env) (s : CrashCasino) (game : Game) (player : Player),
      mapGet s.games s.current_game_id = some game →
      mapGet s.players (s.current_game_id, env.caller) = some player →
      player.exited = true →
      exit_game env s = .error .AlreadyExited) ∧
    (∀ (env : Env) (s s1 : CrashCasino),
      exit_game env s = .ok s1 →
      exit_game env s1 = .error .AlreadyExited) := by
  constructor
  · intro env s game player hg hp hex
    exact exit_game_already env s game player hg hp hex
  · intro env s s1 h
    obtain ⟨game, player, hg, hp, hex, hnc, hmul, hpool, htr, rfl⟩ :=
      exit_game_ok_inv h
    exact exit_game_already env _ game { player with exited := true } hg
      (mapGet_insert_self _ _ _) rfl

/-- Claim C2: an account with no prior balance in the current non-crashed
round that deposits `a > 0` and immediately withdraws in the same round
(with the pool sufficient and the transfer succeeding) is paid
`floor(floor(a * 10^12 / price) * price / 10^12)`; this payout never
exceeds `a`, and equals `a` exactly whenever `a` is a multiple of the
price of the round. -/
theorem claim2_deposit_withdraw_roundtrip (env env2 : Env) (s : CrashCasino)
    (game : Game) (a : Nat)
    (hg : mapGet s.games s.current_game_id = some game)
    (hnc : game.crashed = false)
    (hbal0 : ((mapGet s.players (s.current_game_id, env.caller)).getD
        Player.default).token_balance = 0)
    (ha : env.transferred_value = a)
    (hpos : 0 < a)
    (hprice : game.price ≠ 0)
    (hmul : a * SCALE < U128LIM)
    (hgp : game.game_pool + a < U128LIM)
    (hcp : s.casino_pool + (a : Int) < (U128LIM : Int))
    (hpool0 : 0 ≤ s.casino_pool)
    (hc2 : env2.caller = env.caller)
    (htr : env2.transferOk env.caller
      (a * SCALE / game.price * game.price / SCALE) = true) :
    ∃ s1 s2, enter_game env s = .ok s1 ∧ exit_game env2 s1 = .ok s2 ∧
      s2.casino_pool = s1.casino_pool -
        ((a * SCALE / game.price * game.price / SCALE : Nat) : Int) ∧
      a * SCALE / game.price * game.price / SCALE ≤ a ∧
      (game.price ∣ a → a * SCALE / game.price * game.price / SCALE = a) := by
  subst ha
  have henter := enter_game_eq env s game hg hnc
    (Nat.pos_iff_ne_zero.mp hpos) hmul hprice
    (by rw [hbal0]; exact lt_of_le_of_lt (Nat.zero_add _ ▸ Nat.div_le_self _ _) hmul)
    hgp hcp
  rw [hbal0, Nat.zero_add] at henter
  have hmul2 : env.transferred_value * SCALE / game.price * game.price <
      U128LIM := lt_of_le_of_lt (Nat.div_mul_le_self _ _) hmul
  have hple : env.transferred_value * SCALE / game.price * game.price / SCALE ≤
      env.transferred_value := roundtrip_le _ _
  have hpool2 : ((env.transferred_value * SCALE / game.price * game.price /
      SCALE : Nat) : Int) ≤ s.casino_pool + (env.transferred_value : Int) := by
    calc ((env.transferred_value * SCALE / game.price * game.price /
          SCALE : Nat) : Int)
        ≤ (env.transferred_value : Int) := Int.ofNat_le.mpr hple
      _ ≤ s.casino_pool + (env.transferred_value : Int) :=
          le_add_of_nonneg_left hpool0
  have hexit := exit_game_eq env2
    { s with
      players := mapInsert s.players (s.current_game_id, env.caller)
        { token_balance := env.transferred_value * SCALE / game.price
          exited := false }
      games := mapInsert s.games s.current_game_id
        { game with game_pool := game.game_pool + env.transferred_value }
      casino_pool := s.casino_pool + (env.transferred_value : Int) }
    { game with game_pool := game.game_pool + env.transferred_value }
    { token_balance := env.transferred_value * SCALE / game.price
      exited := false }
    (mapGet_insert_self _ _ _)
    (by rw [hc2]; exact mapGet_insert_self _ _ _)
    rfl hnc hmul2 hpool2 (by rw [hc2]; exact htr)
  exact ⟨_, _, henter, hexit, rfl, hple,
    fun hdvd => roundtrip_exact _ _ hprice hdvd⟩

/-- Witness for C2: deposit of `3 * 10^12` at price `10^12` followed by
an immediate withdraw pays the full amount back. -/
theorem claim2_witness :
    ∃ s1 s2, enter_game ⟨9, 1, 3000000000000, fun _ => 1, fun _ _ => true⟩
        ⟨7, 1, 1, 1, 0, [(1, ⟨1, 1, SCALE, false, 0⟩)], []⟩ = .ok s1 ∧
      exit_game ⟨9, 1, 0, fun _ => 1, fun _ _ => true⟩ s1 = .ok s2 ∧
      s2.casino_pool = s1.casino_pool -
        ((3000000000000 * SCALE / SCALE * SCALE / SCALE : Nat) : Int) ∧
      3000000000000 * SCALE / SCALE * SCALE / SCALE ≤ 3000000000000 ∧
      (SCALE ∣ 3000000000000 →
        3000000000000 * SCALE / SCALE * SCALE / SCALE = 3000000000000) :=
  claim2_deposit_withdraw_roundtrip
    ⟨9, 1, 3000000000000, fun _ => 1, fun _ _ => true⟩
    ⟨9, 1, 0, fun _ => 1, fun _ _ => true⟩
    ⟨7, 1, 1, 1, 0, [(1, ⟨1, 1, SCALE, false, 0⟩)], []⟩
    ⟨1, 1, SCALE, false, 0⟩ 3000000000000
    (by decide) (by decide) (by decide) (by decide) (by decide) (by decide)
    (by decide) (by decide) (by decide) (by decide) (by decide) (by decide)

/-- Claim C3: a successful deposit always resets the `exited` flag of the
depositor to `false` while adding the new tokens to the accumulated
`token_balance`, even when the depositor already exited (was paid out)
earlier in the same round; a subsequent withdraw then pays
`floor(token_balance * price / 10^12)` over the full accumulated balance,
including the tokens that were already paid out before re-entry. -/
theorem claim3_reenter_compounds (env env2 : Env) (s : CrashCasino)
    (game : Game) (b : Nat)
    (hg : mapGet s.games s.current_game_id = some game)
    (hnc : game.crashed = false)
    (hplayer : mapGet s.players (s.current_game_id, env.caller) =
      some ⟨b, true⟩)
    (hamt : env.transferred_value ≠ 0)
    (hmul : env.transferred_value * SCALE < U128LIM)
    (hprice : game.price ≠ 0)
    (hbal : b + env.transferred_value * SCALE / game.price < U128LIM)
    (hgp : game.game_pool + env.transferred_value < U128LIM)
    (hcp : s.casino_pool + (env.transferred_value : Int) < (U128LIM : Int))
    (hmul2 : (b + env.transferred_value * SCALE / game.price) * game.price <
      U128LIM)
    (hpool2 : (((b + env.transferred_value * SCALE / game.price) * game.price /
        SCALE : Nat) : Int) ≤ s.casino_pool + (env.transferred_value : Int))
    (hc2 : env2.caller = env.caller)
    (htr : env2.transferOk env.caller
      ((b + env.transferred_value * SCALE / game.price) * game.price / SCALE) =
      true) :
    ∃ s1 s2, enter_game env s = .ok s1 ∧
      mapGet s1.players (s.current_game_id, env.caller) =
        some ⟨b + env.transferred_value * SCALE / game.price, false⟩ ∧
      exit_game env2 s1 = .ok s2 ∧
      s2.casino_pool = s1.casino_pool -
        (((b + env.transferred_value * SCALE / game.price) * game.price /
          SCALE : Nat) : Int) := by
  have hb : ((mapGet s.players (s.current_game_id, env.caller)).getD
      Player.default).token_balance = b := by rw [hplayer]; rfl
  have henter := enter_game_eq env s game hg hnc hamt hmul hprice
    (by rw [hb]; exact hbal) hgp hcp
  rw [hb] at henter
  have hexit := exit_game_eq env2
    { s with
      players := mapInsert s.players (s.current_game_id, env.caller)
        { token_balance := b + env.transferred_value * SCALE / game.price
          exited := false }
      games := mapInsert s.games s.current_game_id
        { game with game_pool := game.game_pool + env.transferred_value }
      casino_pool := s.casino_pool + (env.transferred_value : Int) }
    { game with game_pool := game.game_pool + env.transferred_value }
    { token_balance := b + env.transferred_value * SCALE / game.price
      exited := false }
    (mapGet_insert_self _ _ _)
    (by rw [hc2]; exact mapGet_insert_self _ _ _)
    rfl hnc hmul2 hpool2 (by rw [hc2]; exact htr)
  exact ⟨_, _, henter, mapGet_insert_self _ _ _, hexit, rfl⟩

/-- Witness for C3: account 9 already exited round 1 with balance
`4 * 10^12`; a new deposit of `10^12` resets `exited` and accumulates to
`5 * 10^12` tokens, and the subsequent withdraw pays over the full
accumulated balance. -/
theorem claim3_witness :
    ∃ s1 s2, enter_game ⟨9, 1, 1000000000000, fun _ => 1, fun _ _ => true⟩
        ⟨7, 1, 1, 1, 4000000000000,
          [(1, ⟨1, 1, SCALE, false, 4000000000000⟩)],
          [((1, 9), ⟨4000000000000, true⟩)]⟩ = .ok s1 ∧
      mapGet s1.players (1, 9) =
        some ⟨4000000000000 + 1000000000000 * SCALE / SCALE, false⟩ ∧
      exit_game ⟨9, 1, 0, fun _ => 1, fun _ _ => true⟩ s1 = .ok s2 ∧
      s2.casino_pool = s1.casino_pool -
        (((4000000000000 + 1000000000000 * SCALE / SCALE) * SCALE /
          SCALE : Nat) : Int) :=
  claim3_reenter_compounds
    ⟨9, 1, 1000000000000, fun _ => 1, fun _ _ => true⟩
    ⟨9, 1, 0, fun _ => 1, fun _ _ => true⟩
    ⟨7, 1, 1, 1, 4000000000000, [(1, ⟨1, 1, SCALE, false, 4000000000000⟩)],
      [((1, 9), ⟨4000000000000, true⟩)]⟩
    ⟨1, 1, SCALE, false, 4000000000000⟩ 4000000000000
    (by decide) (by decide) (by decide) (by decide) (by decide) (by decide)
    (by decide) (by decide) (by decide) (by decide) (by decide) (by decide)
    (by decide)

/-- Witness for C7: a concrete successful withdraw followed by a second
withdraw by the same account; the second fails with `AlreadyExited`. -/
theorem claim7_witness :
    exit_game ⟨9, 1, 0, fun _ => 1, fun _ _ => true⟩
      ⟨7, 1, 0, 1, 0, [(1, ⟨1, 0, SCALE, false, 3000000000000⟩)],
        [((1, 9), ⟨3000000000000, true⟩), ((1, 9), ⟨3000000000000, false⟩)]⟩ =
      .error .AlreadyExited :=
  claim7_withdraw_twice.2 ⟨9, 1, 0, fun _ => 1, fun _ _ => true⟩
    ⟨7, 1, 0, 1, 3000000000000, [(1, ⟨1, 0, SCALE, false, 3000000000000⟩)],
      [((1, 9), ⟨3000000000000, false⟩)]⟩ _ (by decide)

end CrashGame
